import Mathlib

/-!
Verification of the stock-analysis pipeline in `src/AI_stock_agent.py`.

The source is a single Python script: a synthetic price generator
(`generate_sample_data`), a per-ticker statistics calculator
(`calculate_price_changes`), a significance analyzer with a remote-model
path and a rule-based fallback (`analyze_with_llm` / `analyze_with_rules`),
a report builder (`create_report`) and an orchestrator (`main`).

Modelling conventions, fixed once here:
* Prices and derived statistics are runtime floats in the source; they are
  embedded as rationals (`ℚ`).  The one float operation with no exact
  rational counterpart, `sqrt` (used by `np.sqrt` and inside
  `pandas.Series.std`), is a parameter `rt : ℚ → ℚ` of every definition
  that needs it, so the development stays executable; theorems assume of
  `rt` only facts true of the machine square root (nonnegative results,
  `rt 0 = 0`).
* `pandas.Series.std()` uses `ddof = 1`; on a series with fewer than two
  non-NaN entries it returns NaN.  A possibly-NaN float is embedded as
  `Option ℚ`, `none` standing for NaN; the Python comparison `NaN > 40`
  is `False`, and `"{nan:.1f}"` formats as `"nan"`.
* A pandas DataFrame of observations is a `List Obs`; `sort_values('date')`
  is embedded as a stable insertion sort by date (the generator emits one
  row per ticker and day, so date ties never arise within one ticker).
* External effects are explicit parameters: `pyhash` for Python's
  process-salted `hash` on strings, `normals` for the seeded NumPy normal
  stream, `gemini_key` for the environment credential, `respond` for the
  remote model (model name and prompt to an optional response text, `none`
  for any per-model failure), `now` for the report timestamp, and file or
  console output is returned as data.
-/

namespace StockAgent

/-- One row of the observation table: the four columns `date`, `ticker`,
`company`, `price` produced by `generate_sample_data`. -/
structure Obs where
  date : ℤ
  ticker : String
  company : String
  price : ℚ
deriving DecidableEq

/-- One row of the statistics table built by `calculate_price_changes`
(lines 119-128 of the source).  `volatility` is `none` when the source's
float value is NaN. -/
structure Summary where
  ticker : String
  company : String
  current_price : ℚ
  daily_change : ℚ
  period_change : ℚ
  volatility : Option ℚ
  avg_daily_return : ℚ
  latest_date : ℤ
deriving DecidableEq

/-! ## Data source (`generate_sample_data`, lines 50-87) -/

/-- The tracked tickers with display names (module constant `AI_COMPANIES`). -/
def AI_COMPANIES : List (String × String) :=
  [("NVDA", "NVIDIA Corporation"), ("MSFT", "Microsoft Corporation"),
   ("GOOGL", "Alphabet Inc."), ("AMZN", "Amazon.com Inc."),
   ("META", "Meta Platforms Inc."), ("AMD", "Advanced Micro Devices"),
   ("PLTR", "Palantir Technologies"), ("SNOW", "Snowflake Inc."),
   ("CRM", "Salesforce Inc.")]

/-- Base prices per ticker (local dict `base_prices`, lines 60-63). -/
def base_prices : List (String × ℚ) :=
  [("NVDA", 450), ("MSFT", 380), ("GOOGL", 140), ("AMZN", 150),
   ("META", 320), ("AMD", 140), ("PLTR", 25), ("SNOW", 180), ("CRM", 220)]

/-- The multiplicative walk of lines 71-75: starting from `current_price`,
each drawn `change` updates `current_price *= (1 + change)` and the updated
price is appended.  The output lists the appended prices in order. -/
def walkPrices (current_price : ℚ) : List ℚ → List ℚ
  | [] => []
  | change :: rest =>
      (current_price * (1 + change)) :: walkPrices (current_price * (1 + change)) rest

/-- Line 66: `np.random.seed(hash(ticker) % 2**32)`.  `pyhash` stands for
Python's built-in `hash` on strings, which is salted per process. -/
def seedOf (pyhash : String → ℕ) (ticker : String) : ℕ := pyhash ticker % 2 ^ 32

/-- The price series one ticker receives from `generate_sample_data`:
the walk from the ticker's base price driven by the normal draws that the
seeded NumPy generator produces (`normals` maps a seed to its stream of
draws; NumPy is deterministic given the seed). -/
def generate_ticker_prices (pyhash : String → ℕ) (normals : ℕ → List ℚ)
    (ticker : String) : List ℚ :=
  walkPrices ((base_prices.lookup ticker).getD 0) (normals (seedOf pyhash ticker))

/-! ## Statistics calculator (`calculate_price_changes`, lines 89-130) -/

/-- First-seen-order distinct tickers: `df['ticker'].unique()` (line 95). -/
def uniqueTickers : List Obs → List String
  | [] => []
  | r :: rs => r.ticker :: uniqueTickers (rs.filter fun x => x.ticker != r.ticker)
termination_by l => l.length
decreasing_by
  simpa using Nat.lt_succ_of_le (List.length_filter_le _ _)

/-- Ordering of observation rows by date (`sort_values('date')`, line 96). -/
def dateLe (a b : Obs) : Prop := a.date ≤ b.date

instance : DecidableRel dateLe := fun a b => inferInstanceAs (Decidable (a.date ≤ b.date))

/-- `df[df['ticker'] == ticker].sort_values('date')` (line 96), as a stable
sort of the filtered rows. -/
def sortByDate (rows : List Obs) : List Obs := List.insertionSort dateLe rows

/-- Mean of a list of rationals (`Series.mean`); the source only applies it
to nonempty series. -/
def mean (xs : List ℚ) : ℚ := xs.sum / xs.length

/-- Sample variance with `ddof = 1`, the square of `Series.std` (line 114);
only used under a guard that the list has at least two entries. -/
def sampleVar (xs : List ℚ) : ℚ :=
  ((xs.map fun x => (x - mean xs) ^ 2).sum) / ((xs.length : ℚ) - 1)

/-- The non-NaN entries of `price.pct_change()` (line 102): the per-step
returns `p_i / p_(i-1) - 1`. -/
def daily_returns : List ℚ → List ℚ
  | p :: q :: rest => (q / p - 1) :: daily_returns (q :: rest)
  | _ => []

/-- Line 114: `daily_return.std() * np.sqrt(252) * 100`.  `Series.std`
returns NaN (`none`) when fewer than two returns exist; otherwise it is the
square root of the sample variance, both square roots taken by `rt`. -/
def vol_of (rt : ℚ → ℚ) (rets : List ℚ) : Option ℚ :=
  if rets.length < 2 then none else some (rt (sampleVar rets) * rt 252 * 100)

/-- The loop body of lines 95-128 for one ticker: `none` when the ticker
has fewer than two observations (line 98's `continue`), otherwise the
summary row appended to `results`. -/
def buildSummary (rt : ℚ → ℚ) (df : List Obs) (ticker : String) : Option Summary :=
  let ticker_data := sortByDate (df.filter fun r => r.ticker == ticker)
  if h : ticker_data.length < 2 then none
  else
    let latest := ticker_data.get ⟨ticker_data.length - 1, by omega⟩
    let previous := ticker_data.get ⟨ticker_data.length - 2, by omega⟩
    let first := ticker_data.get ⟨0, by omega⟩
    let rets := daily_returns (ticker_data.map fun r => r.price)
    some
      { ticker := ticker
        company := latest.company
        current_price := latest.price
        daily_change := (latest.price - previous.price) / previous.price * 100
        period_change := (latest.price - first.price) / first.price * 100
        volatility := vol_of rt rets
        avg_daily_return := mean rets * 100
        latest_date := latest.date }

/-- `calculate_price_changes` (lines 89-130): one summary per distinct
ticker with at least two observations. -/
def calculate_price_changes (rt : ℚ → ℚ) (df : List Obs) : List Summary :=
  (uniqueTickers df).filterMap (buildSummary rt df)

/-- The date-sorted rows of one ticker (line 96). -/
def tickerRows (df : List Obs) (t : String) : List Obs :=
  sortByDate (df.filter fun r => r.ticker == t)

/-- The price in row `i` of a sorted per-ticker table (a default row for an
out-of-range index; the theorems only use in-range indices). -/
def priceAt (td : List Obs) (i : ℕ) : ℚ := (td.getD i ⟨0, "", "", 0⟩).price

/-! ## Number formatting (Python `format` specifiers used by the script)

Python's fixed-point `format` rounds half to even on the shown decimal.
On the exact rationals the script's values are, this is rounding
`|q| * 10 ^ nd` half to even. -/

/-- Floor of a rational as an integer (`q.num` floor-divided by `q.den`). -/
def floorQ (q : ℚ) : ℤ := q.num.fdiv q.den

/-- Nearest integer, ties to even. -/
def roundHalfEven (q : ℚ) : ℤ :=
  let f := floorQ q
  let frac := q - f
  if frac < 1 / 2 then f
  else if 1 / 2 < frac then f + 1
  else if f % 2 = 0 then f else f + 1

/-- Left-pad a digit string with zeros to `nd` characters. -/
def padLeftZeros (nd : ℕ) (s : String) : String :=
  String.mk (List.replicate (nd - s.length) '0') ++ s

/-- Digits of `|q|` rounded to `nd` decimal places, without a sign:
the common part of Python's `"{:.ndf}"` and `"{:+.ndf}"`. -/
def fmtDigits (nd : ℕ) (q : ℚ) : String :=
  let p : ℕ := 10 ^ nd
  let n : ℕ := (roundHalfEven (|q| * p)).toNat
  toString (n / p) ++ "." ++ padLeftZeros nd (toString (n % p))

/-- Python `"{x:+.ndf}"`: explicit sign, `nd` decimals. -/
def fmtSigned (nd : ℕ) (q : ℚ) : String :=
  (if q < 0 then "-" else "+") ++ fmtDigits nd q

/-- Python `"{x:.ndf}"`: sign only when negative, `nd` decimals. -/
def fmtPlain (nd : ℕ) (q : ℚ) : String :=
  (if q < 0 then "-" else "") ++ fmtDigits nd q

/-- Python `"{x:.1f}"` on the possibly-NaN volatility: NaN prints `"nan"`. -/
def fmtVol : Option ℚ → String
  | none => "nan"
  | some x => fmtPlain 1 x

/-! ## Rule-based analyzer (`analyze_with_rules`, lines 223-255) -/

/-- Python `v > t` where `v` may be NaN: any comparison with NaN is False. -/
def nanGt (v : Option ℚ) (t : ℚ) : Bool :=
  match v with
  | none => false
  | some x => decide (t < x)

/-- The reasons collected for one summary row (lines 230-242), in the
source's order. -/
def reasonsFor (stock : Summary) : List String :=
  (if 5 < |stock.daily_change| then
      ["Large daily move: " ++ fmtSigned 1 stock.daily_change ++ "%"] else [])
  ++ (if 15 < |stock.period_change| then
      ["Large period move: " ++ fmtSigned 1 stock.period_change ++ "%"] else [])
  ++ (if nanGt stock.volatility 40 then
      ["High volatility: " ++ fmtVol stock.volatility ++ "%"] else [])

/-- The line appended to `significant` for a row with reasons (line 245). -/
def entryOf (stock : Summary) : String :=
  stock.ticker ++ " (" ++ stock.company ++ "): " ++
    String.intercalate ", " (reasonsFor stock)

/-- The `significant` list after the loop of lines 229-245. -/
def significantOf (stock_stats : List Summary) : List String :=
  stock_stats.filterMap fun stock =>
    if reasonsFor stock = [] then none else some (entryOf stock)

/-- `analyze_with_rules` (lines 223-255): the three-section text. -/
def analyze_with_rules (stock_stats : List Summary) : String :=
  let significant := significantOf stock_stats
  (if significant ≠ [] then
      "SIGNIFICANT CHANGES:\n" ++
        String.intercalate "\n" (significant.map fun item => "• " ++ item)
    else
      "SIGNIFICANT CHANGES:\nNo significant changes detected by rule-based analysis.")
  ++ "\n\nNOTABLE OBSERVATIONS:\nRule-based analysis focusing on statistical thresholds."
  ++ "\n\nRECOMMENDATION:\nConsider setting up Gemini API key for more intelligent analysis."

/-! ## Remote-model analyzer (`analyze_with_llm`, lines 132-221) -/

/-- The ordered model candidates (lines 190-194). -/
def models_to_try : List String :=
  ["gemini-2.0-flash-exp", "gemini-1.5-flash", "gemini-1.5-pro"]

/-- One summary's block of the `stock_summary` string (lines 153-160). -/
def stock_block (stock : Summary) : String :=
  "\n" ++ stock.ticker ++ " (" ++ stock.company ++ "):\n- Current Price: $"
    ++ fmtPlain 2 stock.current_price ++ "\n- Daily Change: "
    ++ fmtSigned 2 stock.daily_change ++ "%\n- Period Change: "
    ++ fmtSigned 2 stock.period_change ++ "%\n- Volatility: "
    ++ fmtVol stock.volatility ++ "%\n"

/-- The accumulated `stock_summary` string (lines 152-160). -/
def stock_summary_of (stock_stats : List Summary) : String :=
  String.join (stock_stats.map stock_block)

/-- The prompt of lines 163-186 with `stock_summary` interpolated. -/
def promptFor (stock_stats : List Summary) : String :=
  "You are an expert financial analyst specializing in AI companies. Analyze these stock performances and identify truly significant changes from an investment perspective.\n\nStock Data:\n"
  ++ stock_summary_of stock_stats ++
  "\n\nAnalysis Requirements:\n• Identify which stocks have SIGNIFICANT changes and explain why\n• Consider magnitude of changes relative to volatility\n• Evaluate if changes indicate meaningful trends\n• Assess overall AI sector context\n• Highlight risk/opportunity implications\n\nFormat your response as:\n\nSIGNIFICANT CHANGES:\n[List significant stocks with clear explanations]\n\nNOTABLE OBSERVATIONS:\n[Key insights about AI sector trends]\n\nINVESTMENT RECOMMENDATION:\n[Brief actionable perspective for investors]\n\nBe concise but insightful. Focus on the most important findings."

/-- The loop of lines 196-221: try each model in order; a `none` response is
that model's exception, swallowed by the inner `except`.  Returns the text
used and how many network calls `generate_content` were made; when every
candidate fails the outer `except` falls back to `fallback`
(= `analyze_with_rules stock_stats`). -/
def tryModels (respond : String → String → Option String) (prompt : String)
    (fallback : String) : List String → String × ℕ
  | [] => (fallback, 0)
  | model_name :: rest =>
    match respond model_name prompt with
    | some text => (text, 1)
    | none =>
      let r := tryModels respond prompt fallback rest
      (r.1, r.2 + 1)

/-- `analyze_with_llm` (lines 132-221).  `gemini_key` is
`os.getenv('GEMINI_API_KEY')` (`none` when unset); Python's
`if not gemini_key` is also taken by the empty string.  The second
component counts network calls made. -/
def analyze_with_llm (gemini_key : Option String)
    (respond : String → String → Option String)
    (stock_stats : List Summary) : String × ℕ :=
  match gemini_key with
  | none => (analyze_with_rules stock_stats, 0)
  | some key =>
    if key = "" then (analyze_with_rules stock_stats, 0)
    else if key.length < 10 then (analyze_with_rules stock_stats, 0)
    else tryModels respond (promptFor stock_stats) (analyze_with_rules stock_stats)
      models_to_try

/-! ## Report builder (`create_report`, lines 257-310) -/

/-- Python `c * n` on a one-character string. -/
def repeatChar (c : Char) (n : ℕ) : String := String.mk (List.replicate n c)

/-- Line 276: rows with strictly positive daily change. -/
def gainersCount (stock_stats : List Summary) : ℕ :=
  (stock_stats.filter fun s => decide (0 < s.daily_change)).length

/-- Line 277: rows with strictly negative daily change. -/
def losersCount (stock_stats : List Summary) : ℕ :=
  (stock_stats.filter fun s => decide (s.daily_change < 0)).length

/-- Descending order on `daily_change`; `nlargest` keeps ties in input
order (`keep='first'`), which a stable sort under this relation gives. -/
def descDaily (a b : Summary) : Prop := b.daily_change ≤ a.daily_change

instance : DecidableRel descDaily :=
  fun a b => inferInstanceAs (Decidable (b.daily_change ≤ a.daily_change))

/-- Ascending order on `daily_change` for `nsmallest`. -/
def ascDaily (a b : Summary) : Prop := a.daily_change ≤ b.daily_change

instance : DecidableRel ascDaily :=
  fun a b => inferInstanceAs (Decidable (a.daily_change ≤ b.daily_change))

/-- Line 283: `stock_stats.nlargest(3, 'daily_change')`. -/
def top_performers (stock_stats : List Summary) : List Summary :=
  (List.insertionSort descDaily stock_stats).take 3

/-- Line 290: `stock_stats.nsmallest(3, 'daily_change')`. -/
def worst_performers (stock_stats : List Summary) : List Summary :=
  (List.insertionSort ascDaily stock_stats).take 3

/-- One bullet of the performer sections (lines 285 and 292). -/
def performerLine (stock : Summary) : String :=
  "• " ++ stock.ticker ++ ": " ++ fmtSigned 2 stock.daily_change
    ++ "% ($" ++ fmtPlain 2 stock.current_price ++ ")"

/-- One block of the detailed data section (lines 303-308). -/
def detailBlock (stock : Summary) : String :=
  "\n" ++ stock.ticker ++ " - " ++ stock.company
    ++ "\n  Current Price: $" ++ fmtPlain 2 stock.current_price
    ++ "\n  Daily Change: " ++ fmtSigned 2 stock.daily_change
    ++ "%\n  Period Change: " ++ fmtSigned 2 stock.period_change
    ++ "%\n  Volatility: " ++ fmtVol stock.volatility ++ "%"

/-- `create_report` (lines 257-310); `now` stands for the
`datetime.now().strftime(...)` timestamp. -/
def create_report (now : String) (stock_stats : List Summary)
    (llm_analysis : String) : String :=
  String.intercalate "\n"
    (["🤖 AI STOCK MARKET INTELLIGENCE REPORT",
      repeatChar '=' 50,
      "📅 Generated: " ++ now,
      "📊 Companies Analyzed: " ++ toString stock_stats.length,
      "",
      "📈 MARKET OVERVIEW:",
      "• Average Daily Change: " ++
        fmtSigned 2 (mean (stock_stats.map fun s => s.daily_change)) ++ "%",
      "• Average Period Change: " ++
        fmtSigned 2 (mean (stock_stats.map fun s => s.period_change)) ++ "%",
      "• Gainers vs Losers: " ++ toString (gainersCount stock_stats)
        ++ " vs " ++ toString (losersCount stock_stats),
      "",
      "🏆 TOP PERFORMERS:"]
    ++ (top_performers stock_stats).map performerLine
    ++ ["", "📉 WORST PERFORMERS:"]
    ++ (worst_performers stock_stats).map performerLine
    ++ ["", "🧠 INTELLIGENT ANALYSIS:", llm_analysis, "",
        "📊 DETAILED STOCK DATA:"]
    ++ stock_stats.map detailBlock)

/-! ## Orchestrator (`main`, lines 312-348) -/

/-- What one run prints and writes: console lines and the single report
file written at the end (`none` when no write happens). -/
structure MainOutcome where
  messages : List String
  fileWrite : Option (String × String)
deriving DecidableEq

/-- Line 322's console message for an empty observation table. -/
def noDataMessage : String := "❌ No stock data available. Exiting."

/-- `main` (lines 312-348), with the data-source result and the external
collaborators passed in explicitly.  `stock_data.isEmpty` is pandas
`DataFrame.empty`. -/
def mainRun (rt : ℚ → ℚ) (stock_data : List Obs) (gemini_key : Option String)
    (respond : String → String → Option String) (now : String) : MainOutcome :=
  if stock_data.isEmpty then
    { messages := ["🚀 Starting Simple AI Stock Agent", repeatChar '=' 40,
                   noDataMessage]
      fileWrite := none }
  else
    let stock_stats := calculate_price_changes rt stock_data
    let llm_analysis := (analyze_with_llm gemini_key respond stock_stats).1
    let report := create_report now stock_stats llm_analysis
    { messages := ["🚀 Starting Simple AI Stock Agent", repeatChar '=' 40,
                   "\n" ++ repeatChar '=' 60, report, repeatChar '=' 60,
                   "\n💾 Report saved to: ai_stock_report.txt"]
      fileWrite := some ("ai_stock_report.txt", report) }

/-! ## Table-state model of the statistics calculator

`calculate_price_changes` receives `df` and derives, per ticker, the
working table `ticker_data = df[df['ticker'] == ticker].sort_values('date')`
— in pandas a fresh copy, not a view — and the assignment
`ticker_data['daily_return'] = ...` adds a column to that copy only.  To
settle the frame claim, the per-ticker step is embedded with the table
state passed through explicitly: a working frame carries the rows plus the
optional derived column, and each step returns the observation table it
leaves behind alongside its result. -/

/-- A per-ticker working DataFrame: the four base columns as rows, plus the
`daily_return` column once it has been assigned. -/
structure Frame where
  rows : List Obs
  daily_return : Option (List (Option ℚ))
deriving DecidableEq

/-- `Series.pct_change` (line 102): NaN first, then the per-step returns. -/
def pct_change : List ℚ → List (Option ℚ)
  | [] => []
  | p :: rest => none :: (daily_returns (p :: rest)).map some

/-- One iteration of the loop of lines 95-128: build the working copy,
assign its `daily_return` column, and compute the summary from the copy.
The first component is the observation table after the iteration. -/
def processTicker (rt : ℚ → ℚ) (df : List Obs) (ticker : String) :
    List Obs × Option Summary :=
  let ticker_data : Frame :=
    { rows := sortByDate (df.filter fun r => r.ticker == ticker)
      daily_return := none }
  if h : ticker_data.rows.length < 2 then (df, none)
  else
    let withCol : Frame :=
      { ticker_data with
        daily_return := some (pct_change (ticker_data.rows.map fun r => r.price)) }
    let latest := ticker_data.rows.get ⟨ticker_data.rows.length - 1, by omega⟩
    let previous := ticker_data.rows.get ⟨ticker_data.rows.length - 2, by omega⟩
    let first := ticker_data.rows.get ⟨0, by omega⟩
    let rets := ((withCol.daily_return).getD []).reduceOption
    (df, some
      { ticker := ticker
        company := latest.company
        current_price := latest.price
        daily_change := (latest.price - previous.price) / previous.price * 100
        period_change := (latest.price - first.price) / first.price * 100
        volatility := vol_of rt rets
        avg_daily_return := mean rets * 100
        latest_date := latest.date })

/-- The whole loop with the observation table threaded through. -/
def calculate_price_changes_run (rt : ℚ → ℚ) (df : List Obs) :
    List Obs × List Summary :=
  (uniqueTickers df).foldl
    (fun acc ticker =>
      let step := processTicker rt acc.1 ticker
      (step.1, acc.2 ++ step.2.toList))
    (df, [])

/-! ## Concrete inputs used by the claims -/

/-- A summary row with the given ticker and metrics (the other fields do
not enter the analyzed thresholds). -/
def mkRow (t : String) (c : String) (daily period : ℚ) (vol : Option ℚ) : Summary :=
  { ticker := t, company := c, current_price := 100, daily_change := daily
    period_change := period, volatility := vol, avg_daily_return := 0
    latest_date := 0 }

/-- The spec's threshold example: daily 6.0, period 2.0, volatility 10.0. -/
def sampleBig : Summary := mkRow "NVDA" "NVIDIA Corporation" 6 2 (some 10)

/-- A summary with all three metrics below threshold. -/
def sampleQuiet : Summary := mkRow "MSFT" "Microsoft Corporation" 1 2 (some 10)

/-- The spec's report example: four summaries with daily changes
10, -5, 3, -8. -/
def perf4 : List Summary :=
  [mkRow "A" "A Co" 10 0 (some 10), mkRow "B" "B Co" (-5) 0 (some 10),
   mkRow "C" "C Co" 3 0 (some 10), mkRow "D" "D Co" (-8) 0 (some 10)]

/-- A tie on `daily_change` between the first two summaries. -/
def perfTie : List Summary :=
  [mkRow "X" "X Co" 7 0 (some 10), mkRow "Y" "Y Co" 7 0 (some 10),
   mkRow "Z" "Z Co" 1 0 (some 10), mkRow "W" "W Co" 0 0 (some 10)]

/-! ## C2: rule-based significance -/

/-- C2: the rule-based analyzer triggers exactly the reasons whose
threshold is strictly exceeded (`|daily| > 5`, `|period| > 15`,
`volatility > 40`), and a summary enters the significant list exactly by
having at least one reason; on the spec's example (daily 6.0, period 2.0,
volatility 10.0) exactly the one reason `"Large daily move: +6.0%"`
triggers, and a summary below all thresholds triggers no reason and is
excluded from the significant list. -/
theorem rules_trigger_exact_thresholds :
    (∀ stock : Summary,
      (reasonsFor stock ≠ [] ↔
        5 < |stock.daily_change| ∨ 15 < |stock.period_change| ∨
          nanGt stock.volatility 40 = true) ∧
      (reasonsFor stock).length =
        ((if 5 < |stock.daily_change| then 1 else 0) +
          (if 15 < |stock.period_change| then 1 else 0) +
          (if nanGt stock.volatility 40 then 1 else 0))) ∧
    (∀ stock_stats : List Summary, ∀ stock ∈ stock_stats,
      reasonsFor stock ≠ [] → entryOf stock ∈ significantOf stock_stats) ∧
    reasonsFor sampleBig = ["Large daily move: +6.0%"] ∧
    reasonsFor sampleQuiet = [] ∧
    significantOf [sampleBig, sampleQuiet] = [entryOf sampleBig] ∧
    entryOf sampleQuiet ∉ significantOf [sampleBig, sampleQuiet] := by
  refine ⟨fun stock => ⟨?_, ?_⟩, fun stats stock hmem hne => ?_,
    by with_unfolding_all decide, by with_unfolding_all decide,
    by with_unfolding_all decide, by with_unfolding_all decide⟩
  · by_cases h1 : 5 < |stock.daily_change| <;>
      by_cases h2 : 15 < |stock.period_change| <;>
      by_cases h3 : nanGt stock.volatility 40 = true <;>
      simp [reasonsFor, h1, h2, h3]
  · by_cases h1 : 5 < |stock.daily_change| <;>
      by_cases h2 : 15 < |stock.period_change| <;>
      by_cases h3 : nanGt stock.volatility 40 = true <;>
      simp [reasonsFor, h1, h2, h3]
  · simp only [significantOf, List.mem_filterMap]
    exact ⟨stock, hmem, by simp [hne]⟩

/-! ## C5: the generator's seed is salted per process -/

/-- C5 (refuting the claimed cross-run reproducibility): the price series a
ticker receives is not a function of the ticker symbol and the normal
stream alone — it also depends on the process's string-hash salt, because
line 66 seeds NumPy with `hash(ticker) % 2**32` and Python salts `hash` on
strings per process.  Two runs whose hashes differ on `"NVDA"` produce
different series even with the identical (seed-deterministic) NumPy
stream. -/
theorem generate_not_run_reproducible :
    ¬ ∀ (pyhash₁ pyhash₂ : String → ℕ) (normals : ℕ → List ℚ),
        generate_ticker_prices pyhash₁ normals "NVDA" =
          generate_ticker_prices pyhash₂ normals "NVDA" := by
  intro hall
  have h := hall (fun _ => 0) (fun _ => 1) (fun seed => [(seed : ℚ)])
  exact absurd h (by with_unfolding_all decide)

/-! ## C6: positivity of the multiplicative walk -/

/-- C6 (amended): every price of the walk is strictly positive provided the
base price is positive and every drawn change exceeds -1 (so each factor
`1 + change` is positive); it follows that every divisor the statistics
calculator uses is nonzero.  The unamended claim fails because the normal
distribution's support contains draws `≤ -1`. -/
theorem walkPrices_pos (base : ℚ) (changes : List ℚ) (hb : 0 < base)
    (hc : ∀ c ∈ changes, -1 < c) : ∀ p ∈ walkPrices base changes, 0 < p := by
  induction changes generalizing base with
  | nil => simp [walkPrices]
  | cons c cs ih =>
    intro p hp
    simp only [walkPrices, List.mem_cons] at hp
    have hstep : 0 < base * (1 + c) := by
      have := hc c (by simp)
      have : 0 < 1 + c := by linarith
      exact mul_pos hb this
    rcases hp with rfl | hp
    · exact hstep
    · exact ih (base * (1 + c)) hstep (fun d hd => hc d (List.mem_cons_of_mem _ hd)) p hp

/-- C6 witness: a concrete positive base and small draws keep every walk
price positive. -/
theorem walkPrices_pos_witness :
    (0 : ℚ) < 450 ∧ ∀ p ∈ walkPrices 450 [(1 : ℚ) / 40, -(1 : ℚ) / 50], 0 < p :=
  ⟨by norm_num, walkPrices_pos 450 [(1 : ℚ) / 40, -(1 : ℚ) / 50] (by norm_num)
    (by intro c hc; fin_cases hc <;> norm_num)⟩

/-- C6 counterexample: a draw of -2 — inside the support of the normal
distribution the claim appeals to — sends the walk from the positive base
450 to the price -450, which is not strictly positive. -/
theorem walkPrices_negative_price :
    walkPrices 450 [(-2 : ℚ)] = [(-450 : ℚ)] ∧ ¬ (0 : ℚ) < -450 ∧ (0 : ℚ) < 450 := by
  with_unfolding_all decide

/-! ## C8: a missing or short credential disables the remote path -/

/-- C8: with the credential absent or shorter than 10 characters,
`analyze_with_llm` makes no network call (the call count is 0) and returns
exactly the rule-based text for the collection. -/
theorem missing_key_uses_rules (gemini_key : Option String)
    (respond : String → String → Option String) (stock_stats : List Summary)
    (h : gemini_key = none ∨ ∃ k, gemini_key = some k ∧ k.length < 10) :
    analyze_with_llm gemini_key respond stock_stats =
      (analyze_with_rules stock_stats, 0) := by
  rcases h with rfl | ⟨k, rfl, hk⟩
  · rfl
  · by_cases hk0 : k = ""
    · subst hk0; rfl
    · simp [analyze_with_llm, hk0, hk]

/-- C8 witness: the five-character key `"short"` yields the rule-based text
with zero network calls. -/
theorem missing_key_uses_rules_witness :
    analyze_with_llm (some "short") (fun _ _ => some "ignored") [] =
      (analyze_with_rules [], 0) :=
  missing_key_uses_rules (some "short") (fun _ _ => some "ignored") []
    (Or.inr ⟨"short", rfl, by decide⟩)

/-! ## C9: empty observation table -/

/-- C9: with an empty observation table the orchestrator prints the
explicit no-data message and writes no report file. -/
theorem empty_table_no_write (rt : ℚ → ℚ) (stock_data : List Obs)
    (gemini_key : Option String) (respond : String → String → Option String)
    (now : String) (h : stock_data = []) :
    noDataMessage ∈ (mainRun rt stock_data gemini_key respond now).messages ∧
    (mainRun rt stock_data gemini_key respond now).fileWrite = none := by
  subst h
  constructor <;> simp [mainRun]

/-- C9 witness: a concrete empty run. -/
theorem empty_table_no_write_witness :
    noDataMessage ∈
      (mainRun (fun q => q) [] none (fun _ _ => none) "2026-10-12").messages ∧
    (mainRun (fun q => q) [] none (fun _ _ => none) "2026-10-12").fileWrite = none :=
  empty_table_no_write (fun q => q) [] none (fun _ _ => none) "2026-10-12" rfl

/-! ## C4: top and worst performers, gainers and losers -/

instance : IsTotal Summary descDaily := ⟨fun a b => le_total b.daily_change a.daily_change⟩

instance : IsTrans Summary descDaily := ⟨fun _ _ _ h1 h2 => le_trans h2 h1⟩

instance : IsTotal Summary ascDaily := ⟨fun a b => le_total a.daily_change b.daily_change⟩

instance : IsTrans Summary ascDaily := ⟨fun _ _ _ h1 h2 => le_trans h1 h2⟩

/-- What taking 3 off a stable sort by `r` guarantees: the kept block is
`r`-sorted, has length `min 3 n`, and `r`-dominates everything left out. -/
lemma take3_sorted_spec (r : Summary → Summary → Prop) [DecidableRel r]
    [IsTotal Summary r] [IsTrans Summary r] (l : List Summary) :
    List.Sorted r ((List.insertionSort r l).take 3) ∧
    ((List.insertionSort r l).take 3).length = min 3 l.length ∧
    ∃ rest, l.Perm ((List.insertionSort r l).take 3 ++ rest) ∧
      ∀ x ∈ (List.insertionSort r l).take 3, ∀ y ∈ rest, r x y := by
  have hs : List.Sorted r (List.insertionSort r l) := List.sorted_insertionSort r l
  have hp : (List.insertionSort r l).Perm l := List.perm_insertionSort r l
  refine ⟨List.Pairwise.sublist (List.take_sublist 3 _) hs, ?_,
    (List.insertionSort r l).drop 3, ?_, ?_⟩
  · rw [List.length_take, hp.length_eq]
  · rw [List.take_append_drop]
    exact hp.symm
  · rw [← List.take_append_drop 3 (List.insertionSort r l)] at hs
    exact (List.pairwise_append.mp hs).2.2

/-- C4: `top_performers` is the 3 summaries of largest `daily_change` in
descending order and `worst_performers` the 3 smallest in ascending order
(any summary left out is dominated), gainers and losers are counted with
strict inequalities, ties keep input order, and on the spec's example
(daily changes 10, -5, 3, -8) the sections and counts are as stated. -/
theorem performers_sections_correct :
    (∀ stock_stats : List Summary,
      List.Sorted descDaily (top_performers stock_stats) ∧
      List.Sorted ascDaily (worst_performers stock_stats) ∧
      (top_performers stock_stats).length = min 3 stock_stats.length ∧
      (∃ rest, stock_stats.Perm (top_performers stock_stats ++ rest) ∧
        ∀ x ∈ top_performers stock_stats, ∀ y ∈ rest,
          y.daily_change ≤ x.daily_change) ∧
      (∃ rest, stock_stats.Perm (worst_performers stock_stats ++ rest) ∧
        ∀ x ∈ worst_performers stock_stats, ∀ y ∈ rest,
          x.daily_change ≤ y.daily_change)) ∧
    (top_performers perf4).map (fun s => s.ticker) = ["A", "C", "B"] ∧
    (worst_performers perf4).map (fun s => s.ticker) = ["D", "B", "C"] ∧
    gainersCount perf4 = 2 ∧ losersCount perf4 = 2 ∧
    (top_performers perfTie).map (fun s => s.ticker) = ["X", "Y", "Z"] := by
  refine ⟨fun ss => ?_, by with_unfolding_all decide, by with_unfolding_all decide,
    by with_unfolding_all decide, by with_unfolding_all decide,
    by with_unfolding_all decide⟩
  obtain ⟨hs1, hl1, rest1, hp1, hc1⟩ := take3_sorted_spec descDaily ss
  obtain ⟨hs2, hl2, rest2, hp2, hc2⟩ := take3_sorted_spec ascDaily ss
  exact ⟨hs1, hs2, hl1, ⟨rest1, hp1, hc1⟩, ⟨rest2, hp2, hc2⟩⟩

/-! ## C7: the analyzer is total; the rule text is never empty -/

/-- The rule-based text always ends in the fixed recommendation section,
so it is never the empty string. -/
lemma analyze_with_rules_ne_nil (stock_stats : List Summary) :
    analyze_with_rules stock_stats ≠ "" := by
  unfold analyze_with_rules
  intro h
  have hl := congrArg String.length h
  rw [String.length_append, String.length_append] at hl
  have h2 : 0 <
      String.length "\n\nRECOMMENDATION:\nConsider setting up Gemini API key for more intelligent analysis." := by
    decide
  simp at hl
  omega

/-- The try-each-model loop either reaches the fallback or returns some
model's own response text. -/
lemma tryModels_spec (respond : String → String → Option String)
    (prompt fallback : String) (ms : List String) :
    (tryModels respond prompt fallback ms).1 = fallback ∨
      ∃ m ∈ ms, respond m prompt = some (tryModels respond prompt fallback ms).1 := by
  induction ms with
  | nil => exact Or.inl rfl
  | cons m rest ih =>
    cases h : respond m prompt with
    | some text => exact Or.inr ⟨m, by simp, by simp [tryModels, h]⟩
    | none =>
      rcases ih with h1 | ⟨m', hm', h2⟩
      · exact Or.inl (by simp only [tryModels, h]; exact h1)
      · exact Or.inr ⟨m', by simp [hm'], by simp only [tryModels, h]; exact h2⟩

/-- C7 (amended): the analyzer is a total function whose result is either
the rule-based text or the verbatim response of one tried model; the
rule-based text is never empty, so the result is non-empty whenever every
successful remote response is non-empty.  (The unamended claim fails only
when a model succeeds with the empty string, which the code returns
verbatim.) -/
theorem analyzer_total_rules_nonempty (gemini_key : Option String)
    (respond : String → String → Option String) (stock_stats : List Summary) :
    analyze_with_rules stock_stats ≠ "" ∧
    ((analyze_with_llm gemini_key respond stock_stats).1 =
        analyze_with_rules stock_stats ∨
      ∃ model_name ∈ models_to_try,
        respond model_name (promptFor stock_stats) =
          some (analyze_with_llm gemini_key respond stock_stats).1) ∧
    ((∀ m p t, respond m p = some t → t ≠ "") →
      (analyze_with_llm gemini_key respond stock_stats).1 ≠ "") := by
  have hr := analyze_with_rules_ne_nil stock_stats
  have hmain : (analyze_with_llm gemini_key respond stock_stats).1 =
      analyze_with_rules stock_stats ∨
      ∃ model_name ∈ models_to_try,
        respond model_name (promptFor stock_stats) =
          some (analyze_with_llm gemini_key respond stock_stats).1 := by
    match gemini_key with
    | none => exact Or.inl rfl
    | some key =>
      by_cases h0 : key = ""
      · exact Or.inl (by simp [analyze_with_llm, h0])
      · by_cases h10 : key.length < 10
        · exact Or.inl (by simp [analyze_with_llm, h0, h10])
        · have : analyze_with_llm (some key) respond stock_stats =
              tryModels respond (promptFor stock_stats)
                (analyze_with_rules stock_stats) models_to_try := by
            simp [analyze_with_llm, h0, h10]
          rw [this]
          exact tryModels_spec respond (promptFor stock_stats)
            (analyze_with_rules stock_stats) models_to_try
  refine ⟨hr, hmain, fun hne => ?_⟩
  rcases hmain with h | ⟨m, _, h⟩
  · rw [h]; exact hr
  · exact hne m (promptFor stock_stats) _ h

/-- C7 counterexample: with a plausible credential and a first model that
succeeds with the empty string, the analyzer returns the empty string —
the unamended non-emptiness claim is false. -/
theorem analyzer_returns_empty_remote_text :
    (analyze_with_llm (some "0123456789") (fun _ _ => some "") []).1 = "" ∧
    ("0123456789" : String).length = 10 := by
  exact ⟨rfl, by decide⟩

/-! ## C3: volatility sign and degenerate cases -/

/-- `pct_change` drops exactly one entry: `n` prices give `n - 1` returns. -/
lemma daily_returns_length (prices : List ℚ) :
    (daily_returns prices).length = prices.length - 1 := by
  induction prices with
  | nil => simp [daily_returns]
  | cons p rest ih =>
    cases rest with
    | nil => simp [daily_returns]
    | cons q rest2 =>
      simp only [daily_returns, List.length_cons] at ih ⊢
      omega

/-- The mean of a nonempty constant list is that constant. -/
lemma mean_of_const (xs : List ℚ) (c : ℚ) (hne : xs ≠ [])
    (hall : ∀ x ∈ xs, x = c) : mean xs = c := by
  unfold mean
  rw [List.sum_eq_card_nsmul xs c hall, nsmul_eq_mul]
  have hlen : (xs.length : ℚ) ≠ 0 :=
    Nat.cast_ne_zero.mpr fun h => hne (List.length_eq_zero.mp h)
  exact mul_div_cancel_left₀ c hlen

/-- The sample variance of a nonempty constant list is zero. -/
lemma sampleVar_of_const (xs : List ℚ) (c : ℚ) (hne : xs ≠ [])
    (hall : ∀ x ∈ xs, x = c) : sampleVar xs = 0 := by
  unfold sampleVar
  have hz : (xs.map fun x => (x - mean xs) ^ 2).sum = 0 := by
    apply List.sum_eq_zero
    intro y hy
    obtain ⟨x, hx, rfl⟩ := List.mem_map.mp hy
    rw [mean_of_const xs c hne hall, hall x hx]
    ring
  rw [hz, zero_div]

/-- C3 (amended): for a price series of at least 3 observations that is not
constant, the computed volatility is a defined value `v ≥ 0` (not NaN) for
any square-root model `rt` with nonnegative values and `rt 0 = 0`, and
`v = 0` whenever all per-step returns are identical.  (At exactly 2
observations the sample standard deviation of the single return is NaN,
which is why the unamended claim fails there.) -/
theorem volatility_defined_nonneg (rt : ℚ → ℚ) (hpos : ∀ q, 0 ≤ rt q)
    (h0 : rt 0 = 0) (prices : List ℚ) (h3 : 3 ≤ prices.length)
    (hnc : ¬ ∀ p ∈ prices, ∀ q ∈ prices, p = q) :
    ∃ v, vol_of rt (daily_returns prices) = some v ∧ 0 ≤ v ∧
      ((∀ r1 ∈ daily_returns prices, ∀ r2 ∈ daily_returns prices, r1 = r2) →
        v = 0) := by
  have hlen : 2 ≤ (daily_returns prices).length := by
    rw [daily_returns_length]
    omega
  refine ⟨rt (sampleVar (daily_returns prices)) * rt 252 * 100, ?_, ?_, ?_⟩
  · unfold vol_of
    rw [if_neg (by omega)]
  · exact mul_nonneg (mul_nonneg (hpos _) (hpos _)) (by norm_num)
  · intro hid
    have hne : daily_returns prices ≠ [] := by
      intro h
      rw [h] at hlen
      simp at hlen
    obtain ⟨r0, hr0⟩ := List.exists_mem_of_ne_nil _ hne
    have hv0 : sampleVar (daily_returns prices) = 0 :=
      sampleVar_of_const _ r0 hne fun x hx => hid x hx r0 hr0
    rw [hv0, h0, zero_mul, zero_mul]

/-- C3 witness: constant 10% growth over three observations gives identical
returns, a defined volatility, and value zero. -/
theorem volatility_defined_nonneg_witness :
    ∃ v, vol_of (fun q => |q|) (daily_returns [(100 : ℚ), 110, 121]) = some v ∧
      0 ≤ v ∧
      ((∀ r1 ∈ daily_returns [(100 : ℚ), 110, 121],
          ∀ r2 ∈ daily_returns [(100 : ℚ), 110, 121], r1 = r2) → v = 0) :=
  volatility_defined_nonneg (fun q => |q|) (fun q => abs_nonneg q) abs_zero
    [(100 : ℚ), 110, 121] (by decide) (by with_unfolding_all decide)

/-- C3 counterexample: a non-constant series of exactly 2 observations
computes volatility NaN (`none`), so no value `≥ 0` exists there and the
unamended claim fails. -/
theorem volatility_nan_on_two_observations :
    vol_of (fun q => |q|) (daily_returns [(100 : ℚ), 110]) = none ∧
    (¬ ∃ v, vol_of (fun q => |q|) (daily_returns [(100 : ℚ), 110]) = some v ∧
      0 ≤ v) ∧
    ([(100 : ℚ), 110]).length = 2 ∧ (100 : ℚ) ≠ 110 := by
  have h : vol_of (fun q => |q|) (daily_returns [(100 : ℚ), 110]) = none := by
    with_unfolding_all decide
  refine ⟨h, ?_, by decide, by with_unfolding_all decide⟩
  rintro ⟨v, hv, -⟩
  rw [h] at hv
  cases hv

/-! ## C1: the daily-change formula -/

/-- A ticker occurs in `unique()` exactly when some row carries it. -/
lemma mem_uniqueTickers (df : List Obs) (t : String) :
    t ∈ uniqueTickers df ↔ ∃ r ∈ df, r.ticker = t := by
  induction df using uniqueTickers.induct with
  | case1 => simp [uniqueTickers]
  | case2 r rs ih =>
    simp only [uniqueTickers, List.mem_cons]
    constructor
    · rintro (rfl | h)
      · exact ⟨r, Or.inl rfl, rfl⟩
      · obtain ⟨x, hx, hxt⟩ := ih.mp h
        exact ⟨x, Or.inr (List.mem_filter.mp hx).1, hxt⟩
    · rintro ⟨x, rfl | hx', rfl⟩
      · exact Or.inl rfl
      · by_cases he : x.ticker = r.ticker
        · exact Or.inl he
        · refine Or.inr (ih.mpr ⟨x, ?_, rfl⟩)
          exact List.mem_filter.mpr ⟨hx', bne_iff_ne.mpr he⟩

/-- Any summary the loop body emits carries the ticker it was built for. -/
lemma buildSummary_ticker (rt : ℚ → ℚ) (df : List Obs) (u : String)
    (s : Summary) (h : buildSummary rt df u = some s) : s.ticker = u := by
  simp only [buildSummary] at h
  split at h
  · cases h
  · obtain rfl := Option.some.inj h
    rfl

/-- Searching the built summaries for a present ticker finds exactly the
summary the loop body builds for it. -/
lemma find?_filterMap_ticker {rt : ℚ → ℚ} {df : List Obs} {t : String}
    {s : Summary} (us : List String) (hmem : t ∈ us)
    (hs : buildSummary rt df t = some s) :
    (us.filterMap (buildSummary rt df)).find? (fun x => x.ticker == t) =
      some s := by
  induction us with
  | nil => simp at hmem
  | cons u rest ih =>
    by_cases hu : u = t
    · subst hu
      simp only [List.filterMap_cons, hs]
      have hticker : s.ticker = u := buildSummary_ticker rt df u s hs
      simp [List.find?_cons, hticker]
    · have hmem' : t ∈ rest := by
        rcases List.mem_cons.mp hmem with h | h
        · exact absurd h.symm hu
        · exact h
      cases hfu : buildSummary rt df u with
      | none => simpa only [List.filterMap_cons, hfu] using ih hmem'
      | some s' =>
        have hne : (s'.ticker == t) = false := by
          rw [buildSummary_ticker rt df u s' hfu]
          exact beq_false_of_ne hu
        simp only [List.filterMap_cons, hfu]
        rw [List.find?_cons_of_neg _ (by simp [hne])]
        exact ih hmem'

/-- Row `i` of a table as `priceAt` versus a bounds-checked `get`. -/
lemma priceAt_get (td : List Obs) (i : ℕ) (hi : i < td.length) :
    priceAt td i = (td.get ⟨i, hi⟩).price := by
  unfold priceAt
  rw [List.getD_eq_get?, List.get?_eq_get hi]
  rfl

/-- C1: for every ticker with at least 2 observations, the emitted
summary's `daily_change` is exactly (last - previous) / previous × 100 over
the date-sorted rows, its `period_change` is (last - first) / first × 100,
and with exactly 2 observations the two coincide. -/
theorem daily_change_formula (rt : ℚ → ℚ) (df : List Obs) (t : String)
    (h2 : 2 ≤ (tickerRows df t).length) :
    ∃ s, (calculate_price_changes rt df).find? (fun x => x.ticker == t) =
        some s ∧
      s.daily_change =
        (priceAt (tickerRows df t) ((tickerRows df t).length - 1) -
            priceAt (tickerRows df t) ((tickerRows df t).length - 2)) /
          priceAt (tickerRows df t) ((tickerRows df t).length - 2) * 100 ∧
      s.period_change =
        (priceAt (tickerRows df t) ((tickerRows df t).length - 1) -
            priceAt (tickerRows df t) 0) / priceAt (tickerRows df t) 0 * 100 ∧
      ((tickerRows df t).length = 2 → s.daily_change = s.period_change) := by
  have hnlt : ¬ (sortByDate (df.filter fun r => r.ticker == t)).length < 2 := by
    unfold tickerRows at h2
    omega
  obtain ⟨s, hs⟩ : ∃ s, buildSummary rt df t = some s := by
    simp only [buildSummary]
    rw [dif_neg hnlt]
    exact ⟨_, rfl⟩
  have hmem : t ∈ uniqueTickers df := by
    rw [mem_uniqueTickers]
    have hflen : 0 < (df.filter fun r => r.ticker == t).length := by
      have hperm :=
        (List.perm_insertionSort dateLe (df.filter fun r => r.ticker == t)).length_eq
      unfold tickerRows sortByDate at h2
      omega
    obtain ⟨r, hr⟩ := List.exists_mem_of_length_pos hflen
    have hr' := List.mem_filter.mp hr
    exact ⟨r, hr'.1, by simpa using hr'.2⟩
  have hfind : (calculate_price_changes rt df).find? (fun x => x.ticker == t) =
      some s := by
    unfold calculate_price_changes
    exact find?_filterMap_ticker (uniqueTickers df) hmem hs
  have hsval := hs
  simp only [buildSummary] at hsval
  rw [dif_neg hnlt] at hsval
  have heq := Option.some.inj hsval
  have hd : s.daily_change =
      (priceAt (tickerRows df t) ((tickerRows df t).length - 1) -
          priceAt (tickerRows df t) ((tickerRows df t).length - 2)) /
        priceAt (tickerRows df t) ((tickerRows df t).length - 2) * 100 := by
    rw [← heq,
      priceAt_get (tickerRows df t) ((tickerRows df t).length - 1) (by omega),
      priceAt_get (tickerRows df t) ((tickerRows df t).length - 2) (by omega)]
    rfl
  have hp : s.period_change =
      (priceAt (tickerRows df t) ((tickerRows df t).length - 1) -
          priceAt (tickerRows df t) 0) / priceAt (tickerRows df t) 0 * 100 := by
    rw [← heq,
      priceAt_get (tickerRows df t) ((tickerRows df t).length - 1) (by omega),
      priceAt_get (tickerRows df t) 0 (by omega)]
    rfl
  refine ⟨s, hfind, hd, hp, fun hlen2 => ?_⟩
  rw [hd, hp, show (tickerRows df t).length - 2 = 0 by omega]

/-- A three-row table: ticker "A" has two observations, "B" one. -/
def dfW : List Obs :=
  [⟨1, "A", "A Co", 100⟩, ⟨2, "A", "A Co", 110⟩, ⟨1, "B", "B Co", 50⟩]

/-- C1 witness: on a concrete table where ticker "A" has exactly two
observations, the found summary satisfies the formulas and the
daily/period coincidence. -/
theorem daily_change_formula_witness :
    2 ≤ (tickerRows dfW "A").length ∧
    ∃ s, (calculate_price_changes (fun q => q) dfW).find?
        (fun x => x.ticker == "A") = some s ∧
      s.daily_change =
        (priceAt (tickerRows dfW "A") ((tickerRows dfW "A").length - 1) -
            priceAt (tickerRows dfW "A") ((tickerRows dfW "A").length - 2)) /
          priceAt (tickerRows dfW "A") ((tickerRows dfW "A").length - 2) * 100 ∧
      s.period_change =
        (priceAt (tickerRows dfW "A") ((tickerRows dfW "A").length - 1) -
            priceAt (tickerRows dfW "A") 0) /
          priceAt (tickerRows dfW "A") 0 * 100 ∧
      ((tickerRows dfW "A").length = 2 → s.daily_change = s.period_change) :=
  ⟨by decide, daily_change_formula (fun q => q) dfW "A" (by decide)⟩

/-! ## C10: the calculator does not mutate its input table -/

/-- Dropping the NaN head of `pct_change` leaves exactly the per-step
returns (what `std`'s and `mean`'s NaN-skipping sees). -/
lemma reduceOption_pct_change (prices : List ℚ) :
    (pct_change prices).reduceOption = daily_returns prices := by
  have hmap : ∀ l : List ℚ, (l.map some).reduceOption = l := by
    intro l
    induction l with
    | nil => rfl
    | cons a l ih => rw [List.map_cons, List.reduceOption_cons_of_some, ih]
  cases prices with
  | nil => rfl
  | cons p rest =>
    simp only [pct_change, List.reduceOption_cons_of_none]
    exact hmap _

/-- Each loop iteration returns the observation table unchanged: the
column assignment hits only the per-ticker working copy. -/
lemma processTicker_fst (rt : ℚ → ℚ) (df : List Obs) (t : String) :
    (processTicker rt df t).1 = df := by
  simp only [processTicker]
  split <;> rfl

/-- Each loop iteration computes the same summary as the pure loop body. -/
lemma processTicker_snd (rt : ℚ → ℚ) (df : List Obs) (t : String) :
    (processTicker rt df t).2 = buildSummary rt df t := by
  simp only [processTicker, buildSummary]
  split
  · rfl
  · simp only [Option.getD_some, reduceOption_pct_change]

/-- The threaded fold: the table passes through unchanged and the results
accumulate exactly the per-ticker summaries. -/
lemma run_foldl (rt : ℚ → ℚ) (us : List String) (df : List Obs)
    (acc : List Summary) :
    us.foldl (fun acc ticker =>
        let step := processTicker rt acc.1 ticker
        (step.1, acc.2 ++ step.2.toList)) (df, acc) =
      (df, acc ++ us.filterMap (buildSummary rt df)) := by
  induction us generalizing acc with
  | nil => simp
  | cons u rest ih =>
    rw [List.foldl_cons]
    show List.foldl _
      ((processTicker rt df u).1, acc ++ (processTicker rt df u).2.toList) rest = _
    rw [processTicker_fst, processTicker_snd, ih]
    cases h : buildSummary rt df u <;>
      simp [List.filterMap_cons, h, List.append_assoc]

/-- C10: the statistics calculator leaves the observation table exactly as
given — the threaded run returns the input table unchanged — and its
results are those of the pure per-ticker computation. -/
theorem calculator_leaves_table_unchanged (rt : ℚ → ℚ) (df : List Obs) :
    (calculate_price_changes_run rt df).1 = df ∧
    (calculate_price_changes_run rt df).2 = calculate_price_changes rt df := by
  unfold calculate_price_changes_run calculate_price_changes
  rw [run_foldl]
  exact ⟨rfl, by simp⟩

end StockAgent
